import Mathlib

/-!
Verification development for the qv non-destructive region-clipping engine.

The definitions below are a shallow embedding of the clipping core of the
qv volume viewer:

* `src/qv/viewers/volume_viewer.py` — mask pipeline, state codec,
  cumulative-mask accumulation, apply/undo/redo glue;
* `src/qv/core/history/history_manager.py` — the generic undo/redo stack;
* `src/qv/operations/clipping/clipping_operation.py` — the clipping
  operation life-cycle and display-to-world projection;
* `src/qv/core/geometry_utils.py` — vector helpers.

Machine bytes are modelled as `Nat` values (byte arrays as `List Nat`),
fallible operations return `Option`, and external collaborators (the zlib
codec, the VTK camera transform, the VTK implicit-loop rasterizer) are
modelled either by an executable stand-in used only through its documented
contract, or by an explicit function parameter.
-/

namespace QV

/-- Clip mode of a region, from `ClipMode` in
`src/qv/operations/clipping/clipping_operation.py` (referenced as
`ClipMode.REMOVE_INSIDE` / `ClipMode.REMOVE_OUTSIDE`). -/
inductive ClipMode where
  | removeInside
  | removeOutside
deriving DecidableEq, Repr

/-! ### The zlib codec model

`VolumeViewer._compress_current_mask` and
`VolumeViewer._decompress_into_current_mask` call the external `zlib`
library (`zlib.compress(..., level=3)` / `zlib.decompress`).  `zlib` is not
repository code; the repository relies only on it being a deterministic
lossless codec.  We model it by an executable lossless run-length scheme:
`zlibCompress` emits `[count, value]` pairs with `1 ≤ count ≤ 255`, and
`zlibDecompress` parses them, returning `none` on a malformed stream (the
counterpart of `zlib.error`).  Only the lossless round-trip contract —
which zlib also guarantees — is used by the theorems. -/

/-- Run-length encoder body: `count` (between 1 and 255) pending copies of
`value` have been read, `rest` remains. -/
def zlibCompressAux (count value : Nat) : List Nat → List Nat
  | [] => [count, value]
  | b :: rest =>
    if b = value ∧ count < 255 then
      zlibCompressAux (count + 1) value rest
    else
      count :: value :: zlibCompressAux 1 b rest

/-- Executable lossless stand-in for `zlib.compress`. -/
def zlibCompress : List Nat → List Nat
  | [] => []
  | b :: rest => zlibCompressAux 1 b rest

/-- Executable lossless stand-in for `zlib.decompress`; `none` models a
raised `zlib.error`. -/
def zlibDecompress : List Nat → Option (List Nat)
  | [] => some []
  | count :: value :: rest =>
    if 1 ≤ count ∧ count ≤ 255 then
      (zlibDecompress rest).map (fun tail => List.replicate count value ++ tail)
    else
      none
  | [_] => none

theorem zlibDecompress_compressAux (rest : List Nat) :
    ∀ count value, 1 ≤ count → count ≤ 255 →
      zlibDecompress (zlibCompressAux count value rest) =
        some (List.replicate count value ++ rest) := by
  induction rest with
  | nil =>
    intro count value h1 h2
    simp [zlibCompressAux, zlibDecompress, h1, h2]
  | cons b rest ih =>
    intro count value h1 h2
    by_cases hb : b = value ∧ count < 255
    · rw [zlibCompressAux, if_pos hb]
      rw [ih (count + 1) value (by omega) (by omega)]
      obtain ⟨hbv, _⟩ := hb
      subst hbv
      congr 1
      rw [List.replicate_succ' count b]
      simp
    · rw [zlibCompressAux, if_neg hb]
      rw [zlibDecompress, if_pos ⟨h1, h2⟩]
      rw [ih 1 b (by omega) (by omega)]
      simp

/-- The codec stand-in is lossless: decompression inverts compression. -/
theorem zlibDecompress_zlibCompress (l : List Nat) :
    zlibDecompress (zlibCompress l) = some l := by
  cases l with
  | nil => simp [zlibCompress, zlibDecompress]
  | cons b rest =>
    rw [zlibCompress, zlibDecompress_compressAux rest 1 b (by omega) (by omega)]
    simp

/-! ### Mask images and the state codec

A `vtkImageData` voxel buffer is modelled as a flat `List Nat` of byte
values in VTK point order (x fastest, then y, then z); the source scalar
volume as a `List Int` of Hounsfield values. -/

/-- Model of the `vtkImageThreshold` configuration used throughout
`volume_viewer.py` (`ReplaceInOn`/`ReplaceOutOn`,
`ThresholdBetween(-1e38, 1e38)`, `SetInValue`/`SetOutValue`): every voxel
inside the threshold band is replaced by `inValue`, every voxel outside by
`outValue`. -/
def vtkImageThresholdReplace (src : List Int) (lower upper : Int)
    (inValue outValue : Nat) : List Nat :=
  src.map (fun v => if lower ≤ v ∧ v ≤ upper then inValue else outValue)

/-- `VolumeViewer._reset_mask_to_zero` (volume_viewer.py lines 683-697):
despite its name it rebuilds the cumulative mask with `SetInValue(255)` and
`SetOutValue(255)` over the band `(-1e38, 1e38)`, i.e. every voxel of the
result is 255.  `_init_mask_pipeline` builds the freshly-loaded mask with
the same filter configuration. -/
def resetMaskToZero (src : List Int) : List Nat :=
  vtkImageThresholdReplace src (-(10 ^ 38)) (10 ^ 38) 255 255

/-- `VolumeViewer._compress_current_mask` (lines 699-703): flatten the
current mask bytes and compress them. -/
def compressCurrentMask (mask : List Nat) : List Nat :=
  zlibCompress mask

/-- Model of `np.frombuffer(raw, dtype=np.uint8, count=expected)`: reading
`count` bytes from `raw` raises `ValueError` when the buffer holds fewer
than `count` bytes, and silently reads only the first `count` bytes when it
holds more. -/
def npFrombuffer (raw : List Nat) (count : Nat) : Option (List Nat) :=
  if count ≤ raw.length then some (raw.take count) else none

/-- `VolumeViewer._decompress_into_current_mask` (lines 705-718): a `None`
payload resets the mask via `_reset_mask_to_zero` (all 255); otherwise the
payload is inflated and `expected = source.GetNumberOfPoints()` bytes are
read out of it with `np.frombuffer`.  Returns the new cumulative mask
bytes, `none` when an exception propagates. -/
def decompressIntoMask (expected : Nat) (maskZlib : Option (List Nat)) :
    Option (List Nat) :=
  match maskZlib with
  | none => some (List.replicate expected 255)
  | some payload =>
    (zlibDecompress payload).bind (fun raw => npFrombuffer raw expected)

/-- Modelled from the spec: the `mask_zlib`-based `ClippingState` value
consumed by `VolumeViewer` (constructed at volume_viewer.py line 598 as
`ClippingState(mask_zlib=...)`, read at line 661).  Its class definition is
absent from `src/` — `core/states/clipping_state.py` holds an older
regions-based version that has no `mask_zlib` field — so the value is
modelled from the spec: an immutable value holding the compressed bytes of
a mask snapshot, or null (`none`) meaning no active masking. -/
structure ClippingState where
  mask_zlib : Option (List Nat)
deriving DecidableEq, Repr

/-- `ClippingState.default()`: the null state (no active masking). -/
def ClippingState.default : ClippingState := ⟨none⟩

/-- `ClippingState.enabled`: whether any masking payload is present
(volume_viewer.py line 646 branches on `state.enabled`). -/
def ClippingState.enabled (s : ClippingState) : Bool :=
  s.mask_zlib.isSome

/-- The mask a state denotes on a volume of `n` voxels, read through
`_decompress_into_current_mask`: the null state denotes the all-visible
(all-255) mask, a payload state denotes its decompressed bytes. -/
def ClippingState.decompressedMask (n : Nat) (s : ClippingState) :
    Option (List Nat) :=
  decompressIntoMask n s.mask_zlib

/-- Modelled from the spec: equality of `ClippingState` values — "two
states are equal iff their decompressed masks are byte-equal", relative to
the voxel count `n` of the current volume. -/
def ClippingState.specEq (n : Nat) (s1 s2 : ClippingState) : Prop :=
  s1.decompressedMask n = s2.decompressedMask n

instance (n : Nat) (s1 s2 : ClippingState) : Decidable (s1.specEq n s2) := by
  unfold ClippingState.specEq
  infer_instance

/-! ### Region rasterization and mask accumulation -/

/-- Model of `vtkImageStencil` as configured in
`_build_keep_mask_from_polygon_ndc` (volume_viewer.py lines 769-783):
voxels covered by the stencil keep the input value and the others receive
`background`; `ReverseStencilOn` swaps the two roles.  The stencil coverage
(the prism of the selection loop, a piece of external VTK geometry) is
abstracted by the per-voxel predicate `inside` on flat voxel indices. -/
def vtkImageStencilApply (input : List Nat) (inside : Nat → Bool)
    (reverse : Bool) (background : Nat) : List Nat :=
  (input.enum).map (fun p =>
    if (if reverse then !(inside p.1) else inside p.1) then p.2 else background)

/-- `VolumeViewer._build_keep_mask_from_polygon_ndc` (lines 720-787), with
the camera projection and the implicit-selection-loop membership test
abstracted into `inside`: an all-255 "ones" image of the source geometry is
built by `vtkImageThreshold`, then stencilled with background 0 —
`ReverseStencilOn` for `REMOVE_INSIDE` (so voxels inside the polygon get 0
and the rest keep 255) and `ReverseStencilOff` for `REMOVE_OUTSIDE`. -/
def buildKeepMaskFromPolygonNdc (src : List Int) (inside : Nat → Bool)
    (mode : ClipMode) : List Nat :=
  let ones := vtkImageThresholdReplace src (-(10 ^ 38)) (10 ^ 38) 255 255
  vtkImageStencilApply ones inside
    (match mode with
      | ClipMode.removeInside => true
      | ClipMode.removeOutside => false)
    0

/-- `VolumeViewer._accumulate_mask_and` (lines 789-801):
`vtkImageMathematics` with `SetOperationToMin`, i.e. the pointwise minimum
of the cumulative mask and the freshly rasterized keep mask. -/
def accumulateMaskAnd (currentMask regionKeepMask : List Nat) : List Nat :=
  List.zipWith min currentMask regionKeepMask

/-! ### The history manager

`src/qv/core/history/history_manager.py`.  The `apply_state` callback is a
Python callable that may mutate external state (the viewer) and may raise;
it is modelled as `applyState : T → σ → σ × Bool`, returning the external
state after the call together with `true` on normal return and `false` when
it raises.  Each operation returns the external state, the manager after
the call, and whether the operation returned normally; the Python
statements are translated in source order, so state mutated before a raise
persists and statements after a raise do not run. -/

/-- `Command` (history_manager.py lines 12-15). -/
structure Command (T : Type) where
  before : T
  after : T
deriving DecidableEq, Repr

/-- `HistoryManager` state: `max_undo` bound plus the two stacks
(history_manager.py lines 29-31).  Python list order is kept: the newest
command sits at the end of the list. -/
structure HistoryManager (T : Type) where
  max_undo : Nat
  undo_stack : List (Command T)
  redo_stack : List (Command T)
deriving DecidableEq, Repr

/-- The default `max_undo` bound (`__init__(self, max_undo: int = 10)`). -/
def historyDefaultMaxUndo : Nat := 10

/-- `HistoryManager.can_undo` (line 40): `bool(self._undo_stack)`. -/
def HistoryManager.canUndo {T : Type} (h : HistoryManager T) : Bool :=
  !h.undo_stack.isEmpty

/-- `HistoryManager.can_redo` (line 44): `bool(self._redo_stack)`. -/
def HistoryManager.canRedo {T : Type} (h : HistoryManager T) : Bool :=
  !h.redo_stack.isEmpty

/-- `HistoryManager.do` (lines 48-60): `apply_state(cmd.after)` runs first;
only on its normal return is `cmd` appended to the undo stack, the oldest
entry popped (`pop(0)`) when the stack exceeds `max_undo`, and the redo
stack cleared. -/
def HistoryManager.doRun {T σ : Type} (h : HistoryManager T)
    (cmd : Command T) (applyState : T → σ → σ × Bool) (s : σ) :
    σ × HistoryManager T × Bool :=
  let r := applyState cmd.after s
  if r.2 then
    let grown := h.undo_stack ++ [cmd]
    let trimmed := if h.max_undo < grown.length then grown.tail else grown
    (r.1, ⟨h.max_undo, trimmed, []⟩, true)
  else
    (r.1, h, false)

/-- `HistoryManager.undo` (lines 62-71): no-op on an empty stack; otherwise
`apply_state(cmd.before)` runs on the newest command first, and only on its
normal return is the command popped and appended to the redo stack. -/
def HistoryManager.undoRun {T σ : Type} (h : HistoryManager T)
    (applyState : T → σ → σ × Bool) (s : σ) :
    σ × HistoryManager T × Bool :=
  match h.undo_stack.getLast? with
  | none => (s, h, true)
  | some cmd =>
    let r := applyState cmd.before s
    if r.2 then
      (r.1, ⟨h.max_undo, h.undo_stack.dropLast, h.redo_stack ++ [cmd]⟩, true)
    else
      (r.1, h, false)

/-- `HistoryManager.redo` (lines 73-80): symmetric to `undo`, applying
`cmd.after` and moving the command back to the undo stack. -/
def HistoryManager.redoRun {T σ : Type} (h : HistoryManager T)
    (applyState : T → σ → σ × Bool) (s : σ) :
    σ × HistoryManager T × Bool :=
  match h.redo_stack.getLast? with
  | none => (s, h, true)
  | some cmd =>
    let r := applyState cmd.after s
    if r.2 then
      (r.1, ⟨h.max_undo, h.undo_stack ++ [cmd], h.redo_stack.dropLast⟩, true)
    else
      (r.1, h, false)

/-- An `apply_state` callback that always returns normally and has no
observable effect; used to run command sequences whose callback behaviour
is irrelevant. -/
def okApply {T : Type} : T → Unit → Unit × Bool := fun _ u => (u, true)

/-- Fold a list of commands through `do` with an always-succeeding
callback. -/
def HistoryManager.doAll {T : Type} (h : HistoryManager T)
    (cs : List (Command T)) : HistoryManager T :=
  cs.foldl (fun m c => (m.doRun c okApply ()).2.1) h

/-- An `apply_state` callback that records every state it is asked to
apply; used to observe which states a run of undos restores. -/
def logApply {T : Type} : T → List T → List T × Bool :=
  fun t log => (log ++ [t], true)

/-- One `undo` call with the recording callback, threading the manager and
the log of restored states. -/
def undoLogged {T : Type} (p : HistoryManager T × List T) :
    HistoryManager T × List T :=
  let r := p.1.undoRun logApply p.2
  (r.2.1, r.1)

/-- `k` consecutive `undo` calls with the recording callback. -/
def undoN {T : Type} (k : Nat) (p : HistoryManager T × List T) :
    HistoryManager T × List T :=
  undoLogged^[k] p

/-! ### The viewer's apply path -/

/-- The slice of `VolumeViewer` state touched by the clipping apply path:
the cumulative mask buffer (`self._clip_mask_image` scalars), the current
clipping state (`self.clipping_state`) and the history manager
(`self.history`). -/
structure ViewerState where
  mask : List Nat
  clippingState : ClippingState
  history : HistoryManager ClippingState
deriving DecidableEq, Repr

/-- `VolumeViewer.set_clipping_state` (volume_viewer.py lines 629-681) as
the `apply_state` callback seen by the history manager, acting on the
`(mask, clippingState)` slice of viewer state for a loaded volume of `n`
voxels.  Statements run in source order: `self.clipping_state = state` is
assigned first; then the mask is rebuilt — `_reset_mask_to_zero` for a
disabled state, `_decompress_into_current_mask` otherwise (both covered by
`decompressIntoMask`); a decompression error raises after the assignment
and leaves the mask buffer untouched; finally the masker update and
`update_view` run, whose external VTK/Qt rendering may raise — abstracted
by the `renderOk` flag. -/
def setClippingStateRun (n : Nat) (renderOk : Bool) (st : ClippingState)
    (s : List Nat × ClippingState) : (List Nat × ClippingState) × Bool :=
  match decompressIntoMask n st.mask_zlib with
  | none => ((s.1, st), false)
  | some m => ((m, st), renderOk)

/-- The committing tail of `VolumeViewer.apply_clipping` (volume_viewer.py
lines 570-604), after the guards and with the freshly rasterized region
keep mask `keep` in hand: save `before`, accumulate the region into the
live cumulative mask via `_accumulate_mask_and` (an in-place
`ShallowCopy` of the `vtkImageMathematics` output into
`self._clip_mask_image`), compress the accumulated mask into `after`, and
run `history.do` with `set_clipping_state` as callback inside
`try/except` — an exception from `do` is caught and logged, so execution
continues with whatever state the failed call left behind. -/
def applyClippingCore (n : Nat) (renderOk : Bool) (v : ViewerState)
    (keep : List Nat) : ViewerState :=
  let before := v.clippingState
  let mask1 := accumulateMaskAnd v.mask keep
  let after : ClippingState := ⟨some (compressCurrentMask mask1)⟩
  let r := v.history.doRun ⟨before, after⟩ (setClippingStateRun n renderOk)
    (mask1, before)
  ⟨r.1.1, r.1.2, r.2.1⟩

/-! ### Display-to-world projection -/

/-- `_project_display_to_center_plane` — the loop shared by
clipping_operation.py lines 374-415 and volume_viewer.py lines 888-916.
The external camera transforms are parameters: `d2w` is the renderer's
`SetDisplayPoint`/`DisplayToWorld`/`GetWorldPoint` homogeneous display→
world map, and `depth` the screen depth of the reference point obtained
from `WorldToDisplay`.  For each display point `(x, y)` the source
unprojects `(x, y, depth)`, divides by the homogeneous coordinate when
`w != 0.0`, and appends the result unconditionally. -/
def projectDisplayToCenterPlane (d2w : ℚ × ℚ × ℚ → ℚ × ℚ × ℚ × ℚ)
    (depth : ℚ) (displayPoints : List (ℚ × ℚ)) : List (ℚ × ℚ × ℚ) :=
  displayPoints.map (fun q =>
    let h := d2w (q.1, q.2, depth)
    let w := h.2.2.2
    if w ≠ 0 then (h.1 / w, h.2.1 / w, h.2.2.1 / w)
    else (h.1, h.2.1, h.2.2.1))

/-! ### The clipping operation -/

/-- `geometry_utils.direction_vector`: the componentwise difference
`end_point - start_point`. -/
def directionVector (startPoint endPoint : ℚ × ℚ × ℚ) : ℚ × ℚ × ℚ :=
  (endPoint.1 - startPoint.1, endPoint.2.1 - startPoint.2.1,
    endPoint.2.2 - startPoint.2.2)

/-- Squared euclidean norm.  `geometry_utils.calculate_norm` returns
`math.sqrt` of this value; the source only compares the norm against zero
(`if norm == 0`), and for non-negative floats `sqrt(s) == 0` exactly when
`s == 0`, so the square carries the same test. -/
def normSq (v : ℚ × ℚ × ℚ) : ℚ :=
  v.1 ^ 2 + v.2.1 ^ 2 + v.2.2 ^ 2

/-- The mutable selection state of `ClippingOperation`
(clipping_operation.py lines 81-88): backed-up image, finalized clip loop,
the three point buffers and the activity/preview flags.  `Img` and `Loop`
stay abstract (`vtkImageData` / `vtkImplicitSelectionLoop`). -/
structure ClipOpState (Img Loop : Type) where
  backup_image : Option Img
  clip_loop : Option Loop
  clip_points_display : List (ℚ × ℚ)
  clip_points_world : List (ℚ × ℚ × ℚ)
  clip_points_center : List (ℚ × ℚ × ℚ)
  is_active : Bool
  preview_extrude_actor : Bool
deriving DecidableEq, Repr

/-- `ClippingOperation.reset` (lines 158-186): removes the preview actor,
stops region selection, and clears the backup, the loop, all three point
buffers and the active flag. -/
def ClipOpState.resetOp {Img Loop : Type} (_ : ClipOpState Img Loop) :
    ClipOpState Img Loop :=
  ⟨none, none, [], [], [], false, false⟩

/-- `ClippingOperation.apply` (lines 116-145).  `currentImage` is what
`self._image_provider()` returns; `applyClipping` abstracts
`self._apply_clipping()` (the VTK mask/stencil pipeline over the backup
image and the loop, returning `None` on failure).  The result pairs the
final operation state with the list of images passed to
`self._image_updater` during the call. -/
def ClipOpState.applyOp {Img Loop : Type} (s : ClipOpState Img Loop)
    (currentImage : Option Img) (applyClipping : Img → Loop → Option Img) :
    ClipOpState Img Loop × List Img :=
  let afterBackup : ClipOpState Img Loop → ClipOpState Img Loop × List Img :=
    fun s1 =>
      match s1.clip_loop with
      | none => (s1.resetOp, [])
      | some loop =>
        match s1.backup_image with
        | none => (s1.resetOp, [])
        | some b =>
          match applyClipping b loop with
          | none => (s1.resetOp, [])
          | some img => (s1.resetOp, [img])
  match s.backup_image, currentImage with
  | none, none => (s.resetOp, [])
  | none, some img => afterBackup { s with backup_image := some img }
  | some _, _ => afterBackup s

/-- `ClippingOperation.finalize_clip` (lines 214-302).  External inputs are
parameters: `currentImage` from the image provider, `camren` the camera
position/focal pair when both camera and renderer are available (`none`
when either provider fails), `d2w`/`depth` the renderer transforms fed to
`_project_display_to_center_plane`, and `mkLoop` the construction of the
`vtkImplicitSelectionLoop` from the projected points and the view vector.
Every failure path leaves `clip_loop = None` (and drops the backup). -/
def ClipOpState.finalizeClip {Img Loop : Type} (s : ClipOpState Img Loop)
    (currentImage : Option Img) (camren : Option ((ℚ × ℚ × ℚ) × (ℚ × ℚ × ℚ)))
    (d2w : ℚ × ℚ × ℚ → ℚ × ℚ × ℚ × ℚ) (depth : ℚ)
    (mkLoop : List (ℚ × ℚ × ℚ) → ℚ × ℚ × ℚ → Loop) : ClipOpState Img Loop :=
  match currentImage with
  | none => { s with clip_loop := none }
  | some img =>
    let s1 := { s with backup_image := some img }
    if s1.clip_points_display.length < 3 then
      { s1 with backup_image := none, clip_loop := none }
    else
      match camren with
      | none => { s1 with backup_image := none, clip_loop := none }
      | some (pos, fp) =>
        let viewVec := directionVector pos fp
        if normSq viewVec = 0 then
          { s1 with backup_image := none, clip_loop := none }
        else
          let wpc := projectDisplayToCenterPlane d2w depth
            s1.clip_points_display
          if wpc.length < 3 then
            { s1 with backup_image := none, clip_loop := none }
          else
            { s1 with
              clip_points_center := wpc
              clip_loop := some (mkLoop wpc viewVec) }

/-! ## Theorems -/

/-- C4: for every valid voxel mask `m` (a byte array whose length equals
the volume's voxel count `n`), decompressing the result of compressing `m`
yields `m` again, byte for byte. -/
theorem codec_roundtrip (n : Nat) (m : List Nat) (hlen : m.length = n)
    (hbytes : ∀ b ∈ m, b < 256) :
    decompressIntoMask n (some (compressCurrentMask m)) = some m := by
  show (zlibDecompress (zlibCompress m)).bind (fun raw => npFrombuffer raw n) =
    some m
  rw [zlibDecompress_zlibCompress]
  unfold npFrombuffer
  rw [Option.some_bind, if_pos (le_of_eq hlen.symm), ← hlen, List.take_length]

theorem codec_roundtrip_witness :
    ([0, 255, 0] : List Nat).length = 3 ∧
      decompressIntoMask 3 (some (compressCurrentMask [0, 255, 0])) =
        some [0, 255, 0] :=
  ⟨by decide, codec_roundtrip 3 [0, 255, 0] (by decide) (by decide)⟩

/-- C5: evaluation of `_decompress_into_current_mask` at a failing input.
On a 4×4×4 volume (64 expected voxels), a compressed buffer that inflates
to 65 bytes is NOT rejected: `np.frombuffer(raw, count=64)` silently reads
the first 64 bytes, so the over-long payload is cut down to the expected
count instead of raising.  Only an under-long payload (here 63 bytes)
raises. -/
theorem decompress_truncates_overlong_buffer :
    decompressIntoMask 64 (some (zlibCompress (List.replicate 65 0))) =
        some (List.replicate 64 0) ∧
      decompressIntoMask 64 (some (zlibCompress (List.replicate 63 0))) =
        none := by
  constructor <;> decide

/-- C9: two `ClippingState` values are equal (in the spec-modelled sense
`ClippingState.specEq`) iff their decompressed voxel masks are byte-equal;
in particular the null state is equal to any state whose compressed payload
decompresses to the all-visible mask (all 255 under the code's encoding,
which `_decompress_into_current_mask` also produces for the null state). -/
theorem clipping_state_eq_iff_masks_eq (n : Nat) (s1 s2 : ClippingState) :
    (s1.specEq n s2 ↔ s1.decompressedMask n = s2.decompressedMask n) ∧
      (s2.decompressedMask n = some (List.replicate n 255) →
        ClippingState.default.specEq n s2) := by
  constructor
  · exact Iff.rfl
  · intro hvis
    unfold ClippingState.specEq
    rw [hvis]
    rfl

theorem clipping_state_eq_witness :
    ClippingState.default.specEq 4
      ⟨some (compressCurrentMask (List.replicate 4 255))⟩ :=
  (clipping_state_eq_iff_masks_eq 4 ClippingState.default
    ⟨some (compressCurrentMask (List.replicate 4 255))⟩).2 (by decide)

/-- C7: mask accumulation is the pointwise composition
`cumulative[i] = min(cumulative[i], region_keep[i])`, and accumulating two
region keep-masks into any starting cumulative mask is order
independent. -/
theorem accumulate_pointwise_min_and_comm :
    (∀ (c k : List Nat) (i x y : Nat), c.get? i = some x → k.get? i = some y →
        (accumulateMaskAnd c k).get? i = some (min x y)) ∧
      (∀ c a b : List Nat,
        accumulateMaskAnd (accumulateMaskAnd c a) b =
          accumulateMaskAnd (accumulateMaskAnd c b) a) := by
  constructor
  · intro c
    induction c with
    | nil => intro k i x y hx; simp at hx
    | cons c0 ct ih =>
      intro k i x y hx hy
      cases k with
      | nil => simp at hy
      | cons k0 kt =>
        cases i with
        | zero =>
          simp only [List.get?] at hx hy
          obtain rfl : c0 = x := by injection hx
          obtain rfl : k0 = y := by injection hy
          rfl
        | succ j =>
          simp only [List.get?] at hx hy ⊢
          exact ih kt j x y hx hy
  · intro c
    induction c with
    | nil => intro a b; rfl
    | cons c0 ct ih =>
      intro a b
      cases a with
      | nil => cases b <;> rfl
      | cons a0 at1 =>
        cases b with
        | nil => rfl
        | cons b0 bt =>
          simp only [accumulateMaskAnd, List.zipWith] at ih ⊢
          refine congrArg₂ (· :: ·) (by omega) (ih at1 bt)

theorem accumulate_pointwise_witness :
    (accumulateMaskAnd [3, 7] [2, 9]).get? 0 = some (min 3 2) :=
  accumulate_pointwise_min_and_comm.1 [3, 7] [2, 9] 0 3 2 rfl rfl

/-- C2: `do`, `undo` and `redo` invoke the `apply_state` callback before
touching either stack — the external state returned is exactly the state
after the callback ran on `cmd.after` (resp. `cmd.before`) — and if the
callback raises (returns `false`), the manager, both stacks included, is
exactly as it was before the call. -/
theorem history_no_partial_commit {T σ : Type} (h : HistoryManager T)
    (applyState : T → σ → σ × Bool) (s : σ) :
    (∀ cmd : Command T,
        (h.doRun cmd applyState s).1 = (applyState cmd.after s).1 ∧
          ((applyState cmd.after s).2 = false →
            (h.doRun cmd applyState s).2.1 = h)) ∧
      (∀ cmd : Command T, h.undo_stack.getLast? = some cmd →
        (h.undoRun applyState s).1 = (applyState cmd.before s).1 ∧
          ((applyState cmd.before s).2 = false →
            (h.undoRun applyState s).2.1 = h)) ∧
      (∀ cmd : Command T, h.redo_stack.getLast? = some cmd →
        (h.redoRun applyState s).1 = (applyState cmd.after s).1 ∧
          ((applyState cmd.after s).2 = false →
            (h.redoRun applyState s).2.1 = h)) := by
  refine ⟨fun cmd => ?_, fun cmd hlast => ?_, fun cmd hlast => ?_⟩
  · constructor
    · by_cases hb : (applyState cmd.after s).2 <;>
        simp [HistoryManager.doRun, hb]
    · intro hf; simp [HistoryManager.doRun, hf]
  · unfold HistoryManager.undoRun
    rw [hlast]
    constructor
    · by_cases hb : (applyState cmd.before s).2 <;> simp [hb]
    · intro hf; simp [hf]
  · unfold HistoryManager.redoRun
    rw [hlast]
    constructor
    · by_cases hb : (applyState cmd.after s).2 <;> simp [hb]
    · intro hf; simp [hf]

theorem history_no_partial_commit_witness :
    ((⟨10, [⟨1, 2⟩], [⟨3, 4⟩]⟩ : HistoryManager Nat).doRun ⟨5, 6⟩
          (fun _ s => (s + 1, false)) 0).2.1 = ⟨10, [⟨1, 2⟩], [⟨3, 4⟩]⟩ ∧
      ((⟨10, [⟨1, 2⟩], [⟨3, 4⟩]⟩ : HistoryManager Nat).undoRun
          (fun _ s => (s + 1, false)) 0).2.1 = ⟨10, [⟨1, 2⟩], [⟨3, 4⟩]⟩ ∧
      ((⟨10, [⟨1, 2⟩], [⟨3, 4⟩]⟩ : HistoryManager Nat).redoRun
          (fun _ s => (s + 1, false)) 0).2.1 = ⟨10, [⟨1, 2⟩], [⟨3, 4⟩]⟩ := by
  have hthm := history_no_partial_commit
    (⟨10, [⟨1, 2⟩], [⟨3, 4⟩]⟩ : HistoryManager Nat) (fun _ s => (s + 1, false)) 0
  exact ⟨(hthm.1 ⟨5, 6⟩).2 rfl, (hthm.2.1 ⟨1, 2⟩ rfl).2 rfl,
    (hthm.2.2 ⟨3, 4⟩ rfl).2 rfl⟩

/-- C10: `ClippingOperation.apply` called with no clip loop, or with
neither a backup nor a current image, resets the selection state and
returns without invoking the image updater (empty invocation list), so the
displayed volume image is unchanged; and `finalize_clip` hands back a
non-null loop only when a current image, at least 3 display points and a
camera/renderer were all available — every failure path nulls the loop. -/
theorem clipping_apply_aborts_without_update {Img Loop : Type} :
    (∀ (s : ClipOpState Img Loop) (currentImage : Option Img)
        (applyClipping : Img → Loop → Option Img),
        s.clip_loop = none ∨ (s.backup_image = none ∧ currentImage = none) →
        s.applyOp currentImage applyClipping = (s.resetOp, [])) ∧
      (∀ (s : ClipOpState Img Loop) (currentImage : Option Img)
        (camren : Option ((ℚ × ℚ × ℚ) × (ℚ × ℚ × ℚ)))
        (d2w : ℚ × ℚ × ℚ → ℚ × ℚ × ℚ × ℚ) (depth : ℚ)
        (mkLoop : List (ℚ × ℚ × ℚ) → ℚ × ℚ × ℚ → Loop),
        (s.finalizeClip currentImage camren d2w depth mkLoop).clip_loop.isSome →
        currentImage.isSome = true ∧ 3 ≤ s.clip_points_display.length ∧
          camren.isSome = true) := by
  constructor
  · intro s currentImage applyClipping habort
    rcases habort with hloop | ⟨hb, hc⟩
    · cases hbi : s.backup_image <;> cases hci : currentImage <;>
        simp [ClipOpState.applyOp, ClipOpState.resetOp, hloop, hbi, hci]
    · simp [ClipOpState.applyOp, hb, hc]
  · intro s currentImage camren d2w depth mkLoop hsome
    cases currentImage with
    | none => simp [ClipOpState.finalizeClip] at hsome
    | some img =>
      by_cases h3 : s.clip_points_display.length < 3
      · simp [ClipOpState.finalizeClip, h3] at hsome
      · cases camren with
        | none => simp [ClipOpState.finalizeClip, h3] at hsome
        | some pf => exact ⟨rfl, by omega, rfl⟩

theorem clipping_apply_aborts_witness :
    ClipOpState.applyOp
        (⟨some 7, none, [], [], [], true, false⟩ : ClipOpState Nat Nat) (some 8)
        (fun a _ => some a) =
      (ClipOpState.resetOp ⟨some 7, none, [], [], [], true, false⟩, []) :=
  clipping_apply_aborts_without_update.1
    ⟨some 7, none, [], [], [], true, false⟩ (some 8) (fun a _ => some a)
    (Or.inl rfl)

/-- C8 counterexample: a display point whose unprojection is degenerate
(homogeneous `w = 0`) is NOT omitted: with a display→world transform that
returns `(1, 2, 3, 0)`, the single input point is kept (undivided), so the
output has cardinality 1, not 0 as the claim's skip-semantics would
require. -/
theorem projection_keeps_degenerate_point :
    projectDisplayToCenterPlane (fun _ => (1, 2, 3, 0)) 0 [(0, 0)] =
        [(1, 2, 3)] ∧
      (projectDisplayToCenterPlane (fun _ => (1, 2, 3, 0)) 0 [(0, 0)]).length ≠
        0 := by
  constructor
  · simp [projectDisplayToCenterPlane]
  · simp [projectDisplayToCenterPlane]

/-- C8 amended: the projection never skips a point — the output list always
has exactly the cardinality of the input; each point with `w ≠ 0` is
divided by `w`, and each degenerate point is appended with its raw
homogeneous coordinates. -/
theorem projection_preserves_cardinality
    (d2w : ℚ × ℚ × ℚ → ℚ × ℚ × ℚ × ℚ) (depth : ℚ) (pts : List (ℚ × ℚ)) :
    (projectDisplayToCenterPlane d2w depth pts).length = pts.length ∧
      (∀ i x y, pts.get? i = some (x, y) →
        (projectDisplayToCenterPlane d2w depth pts).get? i =
          some (if (d2w (x, y, depth)).2.2.2 ≠ 0 then
              ((d2w (x, y, depth)).1 / (d2w (x, y, depth)).2.2.2,
                (d2w (x, y, depth)).2.1 / (d2w (x, y, depth)).2.2.2,
                (d2w (x, y, depth)).2.2.1 / (d2w (x, y, depth)).2.2.2)
            else
              ((d2w (x, y, depth)).1, (d2w (x, y, depth)).2.1,
                (d2w (x, y, depth)).2.2.1))) := by
  constructor
  · simp [projectDisplayToCenterPlane]
  · intro i x y hi
    simp only [projectDisplayToCenterPlane, List.get?_map, hi, Option.map_some']

/-- A concrete display→world transform used to exercise the projection. -/
def demoTransform : ℚ × ℚ × ℚ → ℚ × ℚ × ℚ × ℚ :=
  fun p => (2 * p.1, 2 * p.2.1, 6, 2)

theorem projection_preserves_cardinality_witness :
    (projectDisplayToCenterPlane demoTransform 0 [(1, 3)]).get? 0 =
      some (if (demoTransform (1, 3, 0)).2.2.2 ≠ 0 then
          ((demoTransform (1, 3, 0)).1 / (demoTransform (1, 3, 0)).2.2.2,
            (demoTransform (1, 3, 0)).2.1 / (demoTransform (1, 3, 0)).2.2.2,
            (demoTransform (1, 3, 0)).2.2.1 / (demoTransform (1, 3, 0)).2.2.2)
        else
          ((demoTransform (1, 3, 0)).1, (demoTransform (1, 3, 0)).2.1,
            (demoTransform (1, 3, 0)).2.2.1)) :=
  (projection_preserves_cardinality demoTransform 0 [(1, 3)]).2 0 1 3 rfl

/-- C1 counterexample: the cumulative mask of a freshly loaded volume is
NOT all 0 — on a 4×4×4 volume (64 voxels, all scalars 0 here) the mask
built by `_init_mask_pipeline`/`_reset_mask_to_zero` holds 255 at every
voxel, refuting the claimed "0 = visible / fresh mask all 0" encoding. -/
theorem fresh_mask_not_all_zero :
    resetMaskToZero (List.replicate 64 (0 : Int)) ≠ List.replicate 64 0 := by
  decide

/-- C1 amended: the cumulative mask encodes visibility as 255 = visible and
0 = hidden (`vtkImageMask` replaces exactly the voxels where the mask is 0
by `CLIPPED_SCALAR`): for a freshly loaded volume every voxel of the mask
is 255, and after applying a `RemoveInside` square polygon covering the
voxels with x ∈ [0, 1] on a 4×4×4 volume — flat VTK index `i` has
`x = i % 4`, so the polygon's prism covers exactly the indices with
`i % 4 ≤ 1` — exactly those voxels are 0 and every other voxel is 255. -/
theorem mask_encoding_scenario :
    (∀ src : List Int, resetMaskToZero src = List.replicate src.length 255) ∧
      accumulateMaskAnd (resetMaskToZero (List.replicate 64 (0 : Int)))
          (buildKeepMaskFromPolygonNdc (List.replicate 64 (0 : Int))
            (fun i => i % 4 ≤ 1) ClipMode.removeInside) =
        (List.range 64).map (fun i => if i % 4 ≤ 1 then 0 else 255) := by
  constructor
  · intro src
    unfold resetMaskToZero vtkImageThresholdReplace
    induction src with
    | nil => rfl
    | cons v t ih =>
      simp only [List.map_cons, List.length_cons, List.replicate_succ,
        ite_self] at ih ⊢
      rw [ih]
  · decide

/-- C3 counterexample: starting from a freshly loaded 4-voxel volume
(mask all 255, null committed state, empty history), one `apply` whose
history-commit callback fails (`renderOk = false`, e.g. the render step of
`set_clipping_state` raises) leaves the history stacks untouched — so the
last committed state is still the null state, denoting the all-255 mask —
yet the cumulative mask already holds the accumulated region, i.e. mask and
history are left mutually inconsistent. -/
theorem apply_mutates_mask_before_commit :
    (applyClippingCore 4 false
          ⟨List.replicate 4 255, ClippingState.default, ⟨10, [], []⟩⟩
          [0, 255, 255, 255]).history = ⟨10, [], []⟩ ∧
      (applyClippingCore 4 false
          ⟨List.replicate 4 255, ClippingState.default, ⟨10, [], []⟩⟩
          [0, 255, 255, 255]).mask ≠ List.replicate 4 255 ∧
      ClippingState.decompressedMask 4 ClippingState.default =
        some (List.replicate 4 255) := by
  refine ⟨?_, ?_, ?_⟩ <;> decide

/-- C3 amended: `apply_clipping` accumulates the new region directly into
the live cumulative mask (`_accumulate_mask_and` shallow-copies the
pointwise minimum back into `self._clip_mask_image`) before compressing and
committing; when the history commit's `apply_state` callback fails, the
exception is caught and the stacks are left unchanged, but the cumulative
mask — and the viewer's `clipping_state` — keep the accumulated content, so
the mask no longer matches the last committed clipping state. -/
theorem apply_accumulates_in_place (n : Nat) (renderOk : Bool)
    (v : ViewerState) (keep : List Nat) (hm : v.mask.length = n)
    (hk : keep.length = n) :
    (applyClippingCore n renderOk v keep).mask =
        accumulateMaskAnd v.mask keep ∧
      (applyClippingCore n renderOk v keep).clippingState =
        ⟨some (compressCurrentMask (accumulateMaskAnd v.mask keep))⟩ ∧
      (renderOk = false →
        (applyClippingCore n renderOk v keep).history = v.history) := by
  have hlen : (accumulateMaskAnd v.mask keep).length = n := by
    simp [accumulateMaskAnd, hm, hk]
  have hdec : decompressIntoMask n
      (some (compressCurrentMask (accumulateMaskAnd v.mask keep))) =
      some (accumulateMaskAnd v.mask keep) := by
    show (zlibDecompress (zlibCompress (accumulateMaskAnd v.mask keep))).bind
      (fun raw => npFrombuffer raw n) = some (accumulateMaskAnd v.mask keep)
    rw [zlibDecompress_zlibCompress]
    unfold npFrombuffer
    rw [Option.some_bind, if_pos (le_of_eq hlen.symm), ← hlen,
      List.take_length]
  unfold applyClippingCore HistoryManager.doRun setClippingStateRun
  simp only [hdec]
  cases renderOk <;> simp

theorem apply_accumulates_in_place_witness :
    ([255, 255] : List Nat).length = 2 ∧ ([0, 255] : List Nat).length = 2 ∧
      (applyClippingCore 2 false ⟨[255, 255], ClippingState.default, ⟨10, [], []⟩⟩
          [0, 255]).mask = accumulateMaskAnd [255, 255] [0, 255] ∧
      (applyClippingCore 2 false ⟨[255, 255], ClippingState.default, ⟨10, [], []⟩⟩
          [0, 255]).history = ⟨10, [], []⟩ :=
  ⟨by decide, by decide,
    (apply_accumulates_in_place 2 false
      ⟨[255, 255], ClippingState.default, ⟨10, [], []⟩⟩ [0, 255]
      (by decide) (by decide)).1,
    (apply_accumulates_in_place 2 false
      ⟨[255, 255], ClippingState.default, ⟨10, [], []⟩⟩ [0, 255]
      (by decide) (by decide)).2.2 rfl⟩

/-- Folding successful `do` calls: starting from a stack of at most
`maxU` commands, the undo stack ends as the suffix of `st ++ cs` that fits
in the bound (each `do` past the bound pops exactly the oldest entry), and
the redo stack is cleared by the first `do`. -/
theorem doAll_stack {T : Type} (maxU : Nat) (hmax : 0 < maxU) :
    ∀ (cs : List (Command T)) (st rs : List (Command T)), st.length ≤ maxU →
      HistoryManager.doAll ⟨maxU, st, rs⟩ cs =
        ⟨maxU, (st ++ cs).drop (st.length + cs.length - maxU),
          if cs.isEmpty then rs else []⟩ := by
  intro cs
  induction cs with
  | nil =>
    intro st rs hst
    simp [HistoryManager.doAll, Nat.sub_eq_zero_of_le hst]
  | cons c cs ih =>
    intro st rs hst
    have hstep : HistoryManager.doAll (⟨maxU, st, rs⟩ : HistoryManager T)
        (c :: cs) =
        HistoryManager.doAll
          ⟨maxU, if maxU < (st ++ [c]).length then (st ++ [c]).tail
            else st ++ [c], []⟩ cs := rfl
    rcases Nat.lt_or_ge st.length maxU with hlt | hge
    · have hnotrim : ¬ maxU < (st ++ [c]).length := by
        simp [List.length_append]; omega
      rw [hstep, if_neg hnotrim,
        ih (st ++ [c]) [] (by simp [List.length_append]; omega)]
      have harith : (st ++ [c]).length + cs.length - maxU =
          st.length + (c :: cs).length - maxU := by
        simp [List.length_append]; omega
      have hemp : (c :: cs).isEmpty = false := rfl
      rw [harith, List.append_assoc, List.singleton_append, hemp]
      by_cases hcs : cs.isEmpty <;> simp [hcs]
    · have heq : st.length = maxU := le_antisymm hst hge
      have htrim : maxU < (st ++ [c]).length := by
        simp [List.length_append]; omega
      cases st with
      | nil => simp at heq; omega
      | cons a st1 =>
        have htail : ((a :: st1) ++ [c]).tail = st1 ++ [c] := rfl
        rw [hstep, if_pos htrim, htail,
          ih (st1 ++ [c]) [] (by simp [List.length_append] at heq ⊢; omega)]
        have harith : (st1 ++ [c]).length + cs.length - maxU = cs.length := by
          simp [List.length_append] at heq ⊢; omega
        have harith2 : (a :: st1).length + (c :: cs).length - maxU =
            cs.length + 1 := by
          simp at heq ⊢; omega
        have hemp : (c :: cs).isEmpty = false := rfl
        rw [harith, harith2, hemp, List.append_assoc, List.singleton_append,
          List.cons_append, List.drop_succ_cons]
        by_cases hcs : cs.isEmpty <;> simp [hcs]

/-- Running as many `undo`s as the undo stack holds drains it, moving every
command to the redo stack (newest first) and restoring exactly the `before`
states of the stacked commands, newest first. -/
theorem undoN_drains {T : Type} (maxU : Nat) :
    ∀ (st rs : List (Command T)) (log : List T),
      undoN st.length (⟨maxU, st, rs⟩, log) =
        (⟨maxU, [], rs ++ st.reverse⟩,
          log ++ st.reverse.map Command.before) := by
  intro st
  induction st using List.reverseRecOn with
  | nil => intro rs log; simp [undoN]
  | append_singleton l a ih =>
    intro rs log
    have hlen : (l ++ [a]).length = l.length + 1 := by simp
    have hfirst : undoLogged ((⟨maxU, l ++ [a], rs⟩ : HistoryManager T), log) =
        (⟨maxU, l, rs ++ [a]⟩, log ++ [a.before]) := by
      unfold undoLogged HistoryManager.undoRun
      rw [List.getLast?_concat]
      simp [logApply, List.dropLast_concat]
    rw [undoN, hlen, Function.iterate_succ_apply, hfirst]
    have := ih (rs ++ [a]) (log ++ [a.before])
    rw [undoN] at this
    rw [this]
    simp

/-- C6: after more than `maxU` successful `do` calls on an initially empty
manager, the undo stack holds exactly the newest `maxU` commands (each
`do` past the bound discarded exactly the oldest retained command, and the
stack never exceeds the bound); `can_undo()` is still true; and `maxU + 1`
consecutive `undo` calls drain exactly those retained commands — restoring
only their `before` states, newest first, and nothing earlier than the
earliest retained command's `before` state (the final `undo` is a no-op on
the empty stack). -/
theorem history_bound_scenario {T : Type} (maxU : Nat) (cs : List (Command T))
    (hmax : 0 < maxU) (hlen : maxU < cs.length) :
    (HistoryManager.doAll ⟨maxU, [], []⟩ cs).undo_stack =
        cs.drop (cs.length - maxU) ∧
      (HistoryManager.doAll ⟨maxU, [], []⟩ cs).undo_stack.length = maxU ∧
      (HistoryManager.doAll ⟨maxU, [], []⟩ cs).canUndo = true ∧
      undoN (maxU + 1) (HistoryManager.doAll ⟨maxU, [], []⟩ cs, []) =
        (⟨maxU, [], (cs.drop (cs.length - maxU)).reverse⟩,
          (cs.drop (cs.length - maxU)).reverse.map Command.before) := by
  have hemp : cs.isEmpty = false := by
    cases cs with
    | nil => simp at hlen
    | cons c cs => rfl
  have hfold : HistoryManager.doAll (⟨maxU, [], []⟩ : HistoryManager T) cs =
      ⟨maxU, cs.drop (cs.length - maxU), []⟩ := by
    rw [doAll_stack maxU hmax cs [] [] (by simp), hemp]
    simp
  have hretlen : (cs.drop (cs.length - maxU)).length = maxU := by
    rw [List.length_drop]; omega
  refine ⟨by rw [hfold], by rw [hfold, hretlen], ?_, ?_⟩
  · rw [hfold]
    have : cs.drop (cs.length - maxU) ≠ [] := by
      intro hnil
      rw [hnil] at hretlen
      simp at hretlen
      omega
    simp [HistoryManager.canUndo, this]
  · rw [hfold]
    have hdrain := undoN_drains maxU (cs.drop (cs.length - maxU))
      ([] : List (Command T)) ([] : List T)
    rw [hretlen] at hdrain
    rw [undoN] at hdrain
    have hstep : undoLogged^[maxU + 1]
        ((⟨maxU, cs.drop (cs.length - maxU), []⟩ : HistoryManager T),
          ([] : List T)) =
        undoLogged (undoLogged^[maxU]
          ((⟨maxU, cs.drop (cs.length - maxU), []⟩ : HistoryManager T),
            ([] : List T))) :=
      Function.iterate_succ_apply' undoLogged maxU _
    rw [undoN, hstep, hdrain]
    unfold undoLogged HistoryManager.undoRun
    simp

theorem history_bound_scenario_witness :
    (HistoryManager.doAll ⟨1, [], []⟩ [(⟨0, 1⟩ : Command Nat), ⟨1, 2⟩]).undo_stack =
        [⟨1, 2⟩] ∧
      (HistoryManager.doAll ⟨1, [], []⟩
          [(⟨0, 1⟩ : Command Nat), ⟨1, 2⟩]).undo_stack.length = 1 ∧
      (HistoryManager.doAll ⟨1, [], []⟩
          [(⟨0, 1⟩ : Command Nat), ⟨1, 2⟩]).canUndo = true ∧
      undoN 2 (HistoryManager.doAll ⟨1, [], []⟩
          [(⟨0, 1⟩ : Command Nat), ⟨1, 2⟩], []) =
        (⟨1, [], [⟨1, 2⟩]⟩, [1]) := by
  have h := history_bound_scenario 1 [(⟨0, 1⟩ : Command Nat), ⟨1, 2⟩]
    (by decide) (by decide)
  exact ⟨h.1, h.2.1, h.2.2.1, h.2.2.2⟩

end QV
